import Mathlib

/-! Verification of `check_rss_support.c`.

A shallow embedding of `main` of `check_rss_support.c`: the program initialises the
runtime, queries device 0 for its `rte_eth_dev_info`, and prints the queue limits,
the RSS offload mask and one line per RSS hash type whose bit is set in the mask.

Standard output is modelled as the string of all characters written by `printf`,
in order; the process result is that string together with the value returned by
`main`.
-/

namespace CheckRssSupport

/-! ## Data model -/

/-- The three fields of `struct rte_eth_dev_info` that `main` reads (lines 15-17).
The struct is declared in `rte_ethdev.h`; the queue limits are unsigned integers and
`flow_type_rss_offloads` is an unsigned 64-bit mask. -/
structure rte_eth_dev_info where
  max_rx_queues : Nat
  max_tx_queues : Nat
  flow_type_rss_offloads : Nat
deriving DecidableEq, Repr

/-- The ten bit constants tested on lines 20-38. Their values come from the header
`rte_ethdev.h`, which is not part of the repository, so they are a parameter of the
embedding. One field per constant, named as in the source. -/
structure RssBits where
  RTE_ETH_RSS_IPV4 : Nat
  RTE_ETH_RSS_FRAG_IPV4 : Nat
  RTE_ETH_RSS_NONFRAG_IPV4_TCP : Nat
  RTE_ETH_RSS_NONFRAG_IPV4_UDP : Nat
  RTE_ETH_RSS_IPV6 : Nat
  RTE_RSS_IPV6 : Nat
  RTE_RSS_IPV6_TCP : Nat
  RTE_RSS_IPV6_UDP : Nat
  RTE_RSS_IPV6_SCTP : Nat
  RTE_RSS_IPV6_OTHER : Nat
deriving DecidableEq, Repr

/-- What the two collaborators called by `main` hand back: the return value of
`rte_eal_init(argc, argv)` (line 5), the return value of
`rte_eth_dev_info_get(0, &dev_info)` (line 12) and the contents of `dev_info` after
that call. -/
structure Collaborators where
  rte_eal_init : Int
  rte_eth_dev_info_get : Int
  dev_info : rte_eth_dev_info
deriving DecidableEq, Repr

/-- The observable result of one run: everything written to standard output and the
value returned by `main`. -/
structure Outcome where
  stdout : String
  ret : Int
deriving DecidableEq, Repr

/-! ## printf -/

/-- The conversion `%u`: the argument as an `unsigned int`, in decimal. -/
def fmt_u (n : Nat) : String :=
  String.mk (Nat.toDigits 10 (n % 2 ^ 32))

/-- The conversion `%lx`: the argument as an `unsigned long` (64 bits), in lower-case
hexadecimal, with no padding. -/
def fmt_lx (n : Nat) : String :=
  String.mk (Nat.toDigits 16 (n % 2 ^ 64))

/-- The call `printf(s)` on a standard output that already holds `out`. -/
def printf (out s : String) : String :=
  out ++ s

/-! ## The program -/

/-- The function `main` (lines 4-42).

Line 12 of the source reads `if (rte_eth_dev_info_get(0, &dev_info);`: the query is
called, and its return value controls no statement, so every statement after it is
executed whatever the query returned. -/
def main (k : RssBits) (w : Collaborators) : Outcome :=
  let out := ""
  let ret := w.rte_eal_init
  if ret < 0 then
    let out := printf out "EAL init failed\n"
    { stdout := out, ret := -1 }
  else
    let _ := w.rte_eth_dev_info_get
    let dev_info := w.dev_info
    let out := printf out "=== RSS Capabilities ===\n"
    let out := printf out ("Max RX queues: " ++ fmt_u dev_info.max_rx_queues ++ "\n")
    let out := printf out ("Max TX queues: " ++ fmt_u dev_info.max_tx_queues ++ "\n")
    let out := printf out
      ("Flow type RSS offloads: 0x" ++ fmt_lx dev_info.flow_type_rss_offloads ++ "\n")
    let out := printf out "\nSupported RSS hash functions:\n"
    let out := if dev_info.flow_type_rss_offloads &&& k.RTE_ETH_RSS_IPV4 ≠ 0
      then printf out "  - RTE_ETH_RSS_IPV4\n" else out
    let out := if dev_info.flow_type_rss_offloads &&& k.RTE_ETH_RSS_FRAG_IPV4 ≠ 0
      then printf out "  - RTE_ETH_RSS_FRAG_IPV4\n" else out
    let out := if dev_info.flow_type_rss_offloads &&& k.RTE_ETH_RSS_NONFRAG_IPV4_TCP ≠ 0
      then printf out "  - RTE_ETH_RSS_NONFRAG_IPV4_TCP\n" else out
    let out := if dev_info.flow_type_rss_offloads &&& k.RTE_ETH_RSS_NONFRAG_IPV4_UDP ≠ 0
      then printf out "  - RTE_ETH_RSS_NONFRAG_IPV4_UDP\n" else out
    let out := if dev_info.flow_type_rss_offloads &&& k.RTE_ETH_RSS_IPV6 ≠ 0
      then printf out "  - RTE_ETH_RSS_IPV6\n" else out
    let out := if dev_info.flow_type_rss_offloads &&& k.RTE_RSS_IPV6 ≠ 0
      then printf out "  - RTE_ETH_RSS_IPV6\n" else out
    let out := if dev_info.flow_type_rss_offloads &&& k.RTE_RSS_IPV6_TCP ≠ 0
      then printf out "  - RTE_ETH_RSS_IPV6_TCP\n" else out
    let out := if dev_info.flow_type_rss_offloads &&& k.RTE_RSS_IPV6_UDP ≠ 0
      then printf out "  - RTE_ETH_RSS_IPV6_UDP\n" else out
    let out := if dev_info.flow_type_rss_offloads &&& k.RTE_RSS_IPV6_SCTP ≠ 0
      then printf out "  - RTE_ETH_RSS_IPV6_SCTP\n" else out
    let out := if dev_info.flow_type_rss_offloads &&& k.RTE_RSS_IPV6_OTHER ≠ 0
      then printf out "  - RTE_ETH_RSS_IPV6_OTHER\n" else out
    { stdout := out, ret := 0 }

/-! ## Reading the output back -/

/-- The lines of a character stream: a line ends at each newline; characters after
the last newline form a final line. -/
def splitLines : List Char → List (List Char)
  | [] => []
  | c :: cs =>
    if c = '\n' then [] :: splitLines cs
    else
      match splitLines cs with
      | [] => [[c]]
      | l :: ls => (c :: l) :: ls

/-- The lines of text written to standard output. -/
def outputLines (out : String) : List String :=
  (splitLines out.data).map String.mk

/-- The sub-header printed on line 19, after the blank line. -/
def subHeader : String := "Supported RSS hash functions:"

/-- The capability lines of an output: the lines that follow the sub-header. -/
def capabilityLines (out : String) : List String :=
  ((outputLines out).dropWhile (fun l => l ≠ subHeader)).drop 1

/-- The capability table read off lines 20-39: for each `if`, in source order, the
constant it tests and the text it prints after the leading `"  - "`. -/
def capabilityTable (k : RssBits) : List (Nat × String) :=
  [ (k.RTE_ETH_RSS_IPV4, "RTE_ETH_RSS_IPV4"),
    (k.RTE_ETH_RSS_FRAG_IPV4, "RTE_ETH_RSS_FRAG_IPV4"),
    (k.RTE_ETH_RSS_NONFRAG_IPV4_TCP, "RTE_ETH_RSS_NONFRAG_IPV4_TCP"),
    (k.RTE_ETH_RSS_NONFRAG_IPV4_UDP, "RTE_ETH_RSS_NONFRAG_IPV4_UDP"),
    (k.RTE_ETH_RSS_IPV6, "RTE_ETH_RSS_IPV6"),
    (k.RTE_RSS_IPV6, "RTE_ETH_RSS_IPV6"),
    (k.RTE_RSS_IPV6_TCP, "RTE_ETH_RSS_IPV6_TCP"),
    (k.RTE_RSS_IPV6_UDP, "RTE_ETH_RSS_IPV6_UDP"),
    (k.RTE_RSS_IPV6_SCTP, "RTE_ETH_RSS_IPV6_SCTP"),
    (k.RTE_RSS_IPV6_OTHER, "RTE_ETH_RSS_IPV6_OTHER") ]

/-- An assignment of the ten constants to ten different bits. The five
`RTE_ETH_RSS_*` values are those of DPDK (bits 2, 3, 4, 5 and 8). -/
def distinctBits : RssBits :=
  { RTE_ETH_RSS_IPV4 := 2 ^ 2
    RTE_ETH_RSS_FRAG_IPV4 := 2 ^ 3
    RTE_ETH_RSS_NONFRAG_IPV4_TCP := 2 ^ 4
    RTE_ETH_RSS_NONFRAG_IPV4_UDP := 2 ^ 5
    RTE_ETH_RSS_IPV6 := 2 ^ 8
    RTE_RSS_IPV6 := 2 ^ 9
    RTE_RSS_IPV6_TCP := 2 ^ 10
    RTE_RSS_IPV6_UDP := 2 ^ 11
    RTE_RSS_IPV6_SCTP := 2 ^ 12
    RTE_RSS_IPV6_OTHER := 2 ^ 13 }

/-- The same assignment, except that `RTE_RSS_IPV6` is a second name of the bit of
`RTE_ETH_RSS_IPV6`. -/
def aliasedBits : RssBits :=
  { distinctBits with RTE_RSS_IPV6 := 2 ^ 8 }

/-- The text made of the given lines, each followed by a newline. -/
def unlines : List (List Char) → List Char
  | [] => []
  | l :: ls => l ++ '\n' :: unlines ls

/-- The fixed lines written by the five `printf` calls of lines 14-19. -/
def fixedLines (d : rte_eth_dev_info) : List String :=
  [ "=== RSS Capabilities ===",
    "Max RX queues: " ++ fmt_u d.max_rx_queues,
    "Max TX queues: " ++ fmt_u d.max_tx_queues,
    "Flow type RSS offloads: 0x" ++ fmt_lx d.flow_type_rss_offloads,
    "",
    subHeader ]

/-- The table filtered by the mask: one line `"  - " ++ text` for each entry whose
constant has a bit in common with the mask, in table order. -/
def tableLines (k : RssBits) (mask : Nat) : List String :=
  ((capabilityTable k).filter (fun e => mask &&& e.1 ≠ 0)).map (fun e => "  - " ++ e.2)

/-- The ten conditional `printf` calls as one loop over a table. -/
def emitCaps (mask : Nat) (out : String) (tbl : List (Nat × String)) : String :=
  tbl.foldl
    (fun out e => if mask &&& e.1 ≠ 0 then printf out ("  - " ++ e.2 ++ "\n") else out) out

/-- The text on standard output when line 20 is reached. -/
def fixedText (d : rte_eth_dev_info) : String :=
  "=== RSS Capabilities ===\n" ++ ("Max RX queues: " ++ fmt_u d.max_rx_queues ++ "\n")
    ++ ("Max TX queues: " ++ fmt_u d.max_tx_queues ++ "\n")
    ++ ("Flow type RSS offloads: 0x" ++ fmt_lx d.flow_type_rss_offloads ++ "\n")
    ++ "\nSupported RSS hash functions:\n"

/-- The bitwise OR of the ten constants tested by the program. -/
def bitsUnion (k : RssBits) : Nat :=
  ((capabilityTable k).map Prod.fst).foldr (fun b u => b ||| u) 0

/-- The number of bits set in a 64-bit value. -/
def popcount64 (n : Nat) : Nat :=
  ((List.range 64).filter (fun i => n.testBit i)).length

/-- The ten constants are pairwise distinct and each is a single bit of a 64-bit
word. -/
def DistinctSingleBits (k : RssBits) : Prop :=
  ((capabilityTable k).map Prod.fst).Nodup ∧
    ∀ b ∈ (capabilityTable k).map Prod.fst, ∃ i ∈ List.range 64, b = 2 ^ i

instance (k : RssBits) : Decidable (DistinctSingleBits k) := by
  unfold DistinctSingleBits
  infer_instance

/-- The value of a hexadecimal digit (0 for any other character). -/
def hexVal (c : Char) : Nat :=
  if '0' ≤ c ∧ c ≤ '9' then c.toNat - '0'.toNat
  else if 'a' ≤ c ∧ c ≤ 'f' then c.toNat - 'a'.toNat + 10
  else if 'A' ≤ c ∧ c ≤ 'F' then c.toNat - 'A'.toNat + 10
  else 0

/-- The number a string of hexadecimal digits denotes, most significant digit first. -/
def parseHex (s : String) : Nat :=
  s.data.foldl (fun acc c => 16 * acc + hexVal c) 0

/-- The rest of `l` after the leading characters `p`, when `l` begins with `p`. -/
def dropLead : List Char → List Char → Option (List Char)
  | [], l => some l
  | _ :: _, [] => none
  | a :: p, b :: l => if a = b then dropLead p l else none

/-- The digit string of the mask line: what follows `Flow type RSS offloads: 0x` on the
first output line that begins so. -/
def maskDigits (out : String) : Option String :=
  (outputLines out).findSome?
    (fun l => (dropLead "Flow type RSS offloads: 0x".data l.data).map String.mk)

/-! ## Lemmas on lines -/

theorem unlines_append (a b : List (List Char)) :
    unlines (a ++ b) = unlines a ++ unlines b := by
  induction a with
  | nil => rfl
  | cons l ls ih => simp [unlines, ih]

theorem splitLines_line (l rest : List Char) (hl : '\n' ∉ l) :
    splitLines (l ++ '\n' :: rest) = l :: splitLines rest := by
  induction l with
  | nil => simp [splitLines]
  | cons c cs ih =>
    have hc : c ≠ '\n' := fun h => hl (by simp [h])
    have hcs : '\n' ∉ cs := fun h => hl (by simp [h])
    simp [splitLines, hc, ih hcs]

theorem splitLines_unlines (ls : List (List Char)) (h : ∀ l ∈ ls, '\n' ∉ l) :
    splitLines (unlines ls) = ls := by
  induction ls with
  | nil => rfl
  | cons l ls ih =>
    have h1 : '\n' ∉ l := h l (by simp)
    have h2 : ∀ x ∈ ls, '\n' ∉ x := fun x hx => h x (by simp [hx])
    rw [unlines, splitLines_line l _ h1, ih h2]

/-! ## Lemmas on digits -/

theorem ite_ne_of {α : Type} (c : Prop) [Decidable c] (a b x : α) (ha : a ≠ x)
    (hb : b ≠ x) : (if c then a else b) ≠ x := by
  split <;> assumption

theorem digitChar_ne_newline (d : Nat) : Nat.digitChar d ≠ '\n' := by
  unfold Nat.digitChar
  repeat (first | exact (by decide) | apply ite_ne_of _ _ _ _ (by decide))

theorem toDigitsCore_no_newline (b : Nat) (fuel : Nat) :
    ∀ (n : Nat) (ds : List Char), '\n' ∉ ds → '\n' ∉ Nat.toDigitsCore b fuel n ds := by
  induction fuel with
  | zero => intro n ds h; simpa [Nat.toDigitsCore] using h
  | succ f ih =>
    intro n ds h
    have h2 : '\n' ∉ Nat.digitChar (n % b) :: ds := by
      intro hm
      rcases List.mem_cons.mp hm with h3 | h3
      · exact digitChar_ne_newline _ h3.symm
      · exact h h3
    simp only [Nat.toDigitsCore]
    split_ifs
    · exact h2
    · exact ih _ _ h2

theorem toDigits_no_newline (b n : Nat) : '\n' ∉ Nat.toDigits b n := by
  unfold Nat.toDigits
  exact toDigitsCore_no_newline b _ n [] (by simp)

/-! ## The shape of the output -/

theorem main_stdout (k : RssBits) (w : Collaborators) (h : 0 ≤ w.rte_eal_init) :
    (main k w).stdout =
      emitCaps w.dev_info.flow_type_rss_offloads (fixedText w.dev_info) (capabilityTable k) := by
  have h2 : ¬ w.rte_eal_init < 0 := not_lt.mpr h
  unfold main
  simp only [h2, if_false]
  rfl

theorem emitCaps_data (mask : Nat) (tbl : List (Nat × String)) :
    ∀ out : String, (emitCaps mask out tbl).data =
      out.data ++ unlines (((tbl.filter (fun e => mask &&& e.1 ≠ 0)).map
        (fun e => "  - " ++ e.2)).map String.data) := by
  induction tbl with
  | nil => intro out; simp [emitCaps, unlines]
  | cons e es ih =>
    intro out
    have ih2 := fun o => ih o
    unfold emitCaps at ih2 ⊢
    rw [List.foldl_cons, ih2]
    by_cases hc : mask &&& e.1 ≠ 0
    · have hn : ("\n" : String).data = ['\n'] := rfl
      simp [List.filter_cons, hc, printf, unlines, String.data_append, hn]
    · simp [List.filter_cons, hc]

theorem fixedText_data (d : rte_eth_dev_info) :
    (fixedText d).data = unlines ((fixedLines d).map String.data) := by
  simp only [fixedText, fixedLines, String.data_append, List.map_cons, List.map_nil, unlines,
    List.append_assoc, subHeader]
  rfl

theorem fmt_u_no_newline (n : Nat) : '\n' ∉ (fmt_u n).data :=
  toDigits_no_newline _ _

theorem fmt_lx_no_newline (n : Nat) : '\n' ∉ (fmt_lx n).data :=
  toDigits_no_newline _ _

theorem fixedLines_no_newline (d : rte_eth_dev_info) :
    ∀ l ∈ (fixedLines d).map String.data, '\n' ∉ l := by
  intro l hl
  simp only [fixedLines, List.map_cons, List.map_nil, List.mem_cons, String.data_append,
    List.mem_singleton, List.not_mem_nil, or_false] at hl
  rcases hl with h | h | h | h | h | h <;> subst h
  · decide
  · rw [List.mem_append]; exact fun h => h.elim (by decide) (fmt_u_no_newline _)
  · rw [List.mem_append]; exact fun h => h.elim (by decide) (fmt_u_no_newline _)
  · rw [List.mem_append]; exact fun h => h.elim (by decide) (fmt_lx_no_newline _)
  · decide
  · decide

theorem tableLines_no_newline (k : RssBits) (mask : Nat) :
    ∀ l ∈ (tableLines k mask).map String.data, '\n' ∉ l := by
  intro l hl
  simp only [tableLines, List.mem_map, List.mem_filter] at hl
  obtain ⟨s, ⟨e, ⟨he, -⟩, rfl⟩, rfl⟩ := hl
  simp only [capabilityTable, List.mem_cons, List.mem_singleton, List.not_mem_nil,
    or_false] at he
  rcases he with h | h | h | h | h | h | h | h | h | h <;> subst h <;> dsimp only <;> decide

theorem map_mk_data (ls : List String) : (ls.map String.data).map String.mk = ls := by
  induction ls with
  | nil => rfl
  | cons l ls ih => rw [List.map_cons, List.map_cons, ih]

/-- On a run that passes the initialisation check, the lines on standard output are the
six fixed lines followed by the table filtered by the mask. -/
theorem main_lines (k : RssBits) (w : Collaborators) (h : 0 ≤ w.rte_eal_init) :
    outputLines (main k w).stdout =
      fixedLines w.dev_info ++ tableLines k w.dev_info.flow_type_rss_offloads := by
  have hnl : ∀ l ∈ (fixedLines w.dev_info ++
      tableLines k w.dev_info.flow_type_rss_offloads).map String.data, '\n' ∉ l := by
    intro l hl
    rw [List.map_append, List.mem_append] at hl
    rcases hl with hl | hl
    · exact fixedLines_no_newline _ l hl
    · exact tableLines_no_newline _ _ l hl
  have ht : (main k w).stdout.data = unlines ((fixedLines w.dev_info ++
      tableLines k w.dev_info.flow_type_rss_offloads).map String.data) := by
    rw [main_stdout k w h, emitCaps_data, fixedText_data, List.map_append, unlines_append]
    rfl
  unfold outputLines
  rw [ht, splitLines_unlines _ hnl, map_mk_data]

theorem ne_subHeader_of_head (s : String) (c : Char) (rest : List Char)
    (hs : s.data = c :: rest) (hc : c ≠ 'S') : s ≠ subHeader := by
  intro h
  rw [h] at hs
  have h2 : 'S' = c := (List.cons.inj hs).1
  exact hc h2.symm

theorem dropWhile_fixedLines (d : rte_eth_dev_info) (rest : List String) :
    ((fixedLines d ++ rest).dropWhile (fun l => l ≠ subHeader)).drop 1 = rest := by
  have h1 : ("=== RSS Capabilities ===" : String) ≠ subHeader := by decide
  have h2 : "Max RX queues: " ++ fmt_u d.max_rx_queues ≠ subHeader :=
    ne_subHeader_of_head _ 'M' _ (by rw [String.data_append]; rfl) (by decide)
  have h3 : "Max TX queues: " ++ fmt_u d.max_tx_queues ≠ subHeader :=
    ne_subHeader_of_head _ 'M' _ (by rw [String.data_append]; rfl) (by decide)
  have h4 : "Flow type RSS offloads: 0x" ++ fmt_lx d.flow_type_rss_offloads ≠ subHeader :=
    ne_subHeader_of_head _ 'F' _ (by rw [String.data_append]; rfl) (by decide)
  have h5 : ("" : String) ≠ subHeader := by decide
  simp [fixedLines, List.dropWhile, h1, h2, h3, h4, h5]

/-- On a run that passes the initialisation check, the capability lines are the table
filtered by the mask. -/
theorem main_capabilityLines (k : RssBits) (w : Collaborators) (h : 0 ≤ w.rte_eal_init) :
    capabilityLines (main k w).stdout = tableLines k w.dev_info.flow_type_rss_offloads := by
  unfold capabilityLines
  rw [main_lines k w h, dropWhile_fixedLines]

theorem ne_of_head (s t : String) (c d : Char) (rs rt : List Char)
    (hs : s.data = c :: rs) (ht : t.data = d :: rt) (hcd : c ≠ d) : s ≠ t := by
  intro h
  rw [h, ht] at hs
  exact hcd (List.cons.inj hs).1.symm

theorem and_ne_zero_mono (m1 m2 b : Nat) (hsub : m1 &&& m2 = m1) (h : m1 &&& b ≠ 0) :
    m2 &&& b ≠ 0 := by
  intro h0
  apply h
  rw [← hsub, Nat.and_assoc, h0, Nat.and_zero]

theorem tableLine_data (e : Nat × String) :
    ("  - " ++ e.2).data = ' ' :: (' ' :: '-' :: ' ' :: e.2.data) := by
  rw [String.data_append]; rfl

theorem fixedLine_ne_init_message (d : rte_eth_dev_info) :
    ∀ l ∈ fixedLines d, l ≠ "EAL init failed" := by
  intro l hl
  simp only [fixedLines, List.mem_cons, List.mem_singleton, List.not_mem_nil, or_false] at hl
  rcases hl with h | h | h | h | h | h <;> subst h
  · decide
  · exact ne_of_head _ _ 'M' 'E' _ _ (by rw [String.data_append]; rfl) rfl (by decide)
  · exact ne_of_head _ _ 'M' 'E' _ _ (by rw [String.data_append]; rfl) rfl (by decide)
  · exact ne_of_head _ _ 'F' 'E' _ _ (by rw [String.data_append]; rfl) rfl (by decide)
  · decide
  · decide

theorem tableLine_ne_init_message (k : RssBits) (m : Nat) :
    ∀ l ∈ tableLines k m, l ≠ "EAL init failed" := by
  intro l hl
  simp only [tableLines, List.mem_map] at hl
  obtain ⟨e, -, rfl⟩ := hl
  exact ne_of_head _ _ ' ' 'E' _ _ (tableLine_data e) rfl (by decide)

theorem not_lead_of_head (l : String) (c : Char) (rest : List Char)
    (hl : l.data = c :: rest) (hc : c ≠ ' ') : ¬ "  - ".data <+: l.data := by
  rintro ⟨t, ht⟩
  rw [hl] at ht
  have h2 : ' ' = c := (List.cons.inj ht).1
  exact hc h2.symm

theorem fixedLine_not_capability (d : rte_eth_dev_info) :
    ∀ l ∈ fixedLines d, ¬ "  - ".data <+: l.data := by
  intro l hl
  simp only [fixedLines, List.mem_cons, List.mem_singleton, List.not_mem_nil, or_false] at hl
  rcases hl with h | h | h | h | h | h <;> subst h
  · exact not_lead_of_head _ '=' _ rfl (by decide)
  · exact not_lead_of_head _ 'M' _ (by rw [String.data_append]; rfl) (by decide)
  · exact not_lead_of_head _ 'M' _ (by rw [String.data_append]; rfl) (by decide)
  · exact not_lead_of_head _ 'F' _ (by rw [String.data_append]; rfl) (by decide)
  · rintro ⟨t, ht⟩
    exact absurd ht (by simp)
  · exact not_lead_of_head _ 'S' _ rfl (by decide)

theorem allOnes_and (b : Nat) (hb : b < 2 ^ 64) : (2 ^ 64 - 1) &&& b = b := by
  rw [Nat.and_comm]
  exact Nat.and_pow_two_sub_one_of_lt_two_pow hb

/-! ## Counting bits -/

theorem and_two_pow_ne_zero (m i : Nat) : m &&& 2 ^ i ≠ 0 ↔ m.testBit i = true := by
  constructor
  · intro h
    by_contra hb
    apply h
    apply Nat.eq_of_testBit_eq
    intro j
    rw [Nat.testBit_and, Nat.testBit_two_pow, Nat.zero_testBit]
    by_cases hj : i = j
    · subst hj; simp [hb]
    · simp [hj]
  · intro h h0
    have h1 : (m &&& 2 ^ i).testBit i = true := by
      rw [Nat.testBit_and, Nat.testBit_two_pow, h]; simp
    rw [h0, Nat.zero_testBit] at h1
    exact Bool.false_ne_true h1

theorem testBit_foldr_or (idx : List Nat) (j : Nat) :
    ((idx.map (fun i => 2 ^ i)).foldr (fun b u => b ||| u) 0).testBit j = decide (j ∈ idx) := by
  induction idx with
  | nil => simp
  | cons i is ih =>
    rw [List.map_cons, List.foldr_cons, Nat.testBit_or, ih, Nat.testBit_two_pow]
    by_cases hj : i = j
    · subst hj; simp
    · have hj2 : ¬ j = i := fun h => hj h.symm
      simp [hj, hj2]

theorem count_eq_popcount (m : Nat) (idx : List Nat) (hnd : idx.Nodup)
    (hlt : ∀ i ∈ idx, i < 64) :
    ((idx.map (fun i => 2 ^ i)).filter (fun b => m &&& b ≠ 0)).length =
      popcount64 (m &&& (idx.map (fun i => 2 ^ i)).foldr (fun b u => b ||| u) 0) := by
  unfold popcount64
  rw [List.filter_map, List.length_map]
  apply List.Perm.length_eq
  rw [List.perm_ext_iff_of_nodup (hnd.filter _) ((List.nodup_range 64).filter _)]
  intro j
  simp only [List.mem_filter, List.mem_range, Function.comp, Nat.testBit_and,
    testBit_foldr_or, Bool.and_eq_true, decide_eq_true_eq]
  rw [and_two_pow_ne_zero]
  constructor
  · rintro ⟨h1, h2⟩
    exact ⟨hlt j h1, h2, h1⟩
  · rintro ⟨_, h2, h1⟩
    exact ⟨h1, h2⟩

theorem exists_idx (bs : List Nat) (h : ∀ b ∈ bs, ∃ i ∈ List.range 64, b = 2 ^ i) :
    ∃ idx : List Nat, bs = idx.map (fun i => 2 ^ i) ∧ ∀ i ∈ idx, i < 64 := by
  induction bs with
  | nil => exact ⟨[], rfl, by simp⟩
  | cons b bs ih =>
    obtain ⟨i, hi, hb⟩ := h b (by simp)
    obtain ⟨idx, hidx, hlt⟩ := ih (fun x hx => h x (by simp [hx]))
    refine ⟨i :: idx, by rw [List.map_cons, ← hidx, hb], ?_⟩
    intro j hj
    rcases List.mem_cons.mp hj with rfl | h2
    · exact List.mem_range.mp hi
    · exact hlt j h2

/-! ## Hexadecimal digits -/

theorem digitsText_core (b : Nat) (hb : 1 < b) (fuel : Nat) :
    ∀ (n : Nat) (ds : List Char), n < fuel →
      Nat.toDigitsCore b fuel n ds =
        (if n = 0 then ['0'] else (Nat.digits b n).reverse.map Nat.digitChar) ++ ds := by
  induction fuel with
  | zero => intro n ds h; omega
  | succ f ih =>
    intro n ds h
    simp only [Nat.toDigitsCore]
    by_cases hn : n = 0
    · subst hn
      simp
      rfl
    · have hpos : 0 < n := Nat.pos_of_ne_zero hn
      rw [if_neg hn, Nat.digits_def' hb hpos]
      by_cases hq : n / b = 0
      · rw [if_pos hq, hq]
        simp
      · rw [if_neg hq]
        have hlt : n / b < f := by
          have := Nat.div_lt_self hpos hb
          omega
        rw [ih (n / b) _ hlt, if_neg hq]
        simp

theorem toDigits_eq_digits (b : Nat) (hb : 1 < b) (n : Nat) :
    Nat.toDigits b n =
      if n = 0 then ['0'] else (Nat.digits b n).reverse.map Nat.digitChar := by
  unfold Nat.toDigits
  rw [digitsText_core b hb (n + 1) n [] (Nat.lt_succ_self n), List.append_nil]

theorem hexVal_digitChar (d : Nat) (h : d < 16) : hexVal (Nat.digitChar d) = d := by
  interval_cases d <;> decide

theorem foldl_hex_digits (l : List Nat) (hl : ∀ d ∈ l, d < 16) :
    (l.reverse.map Nat.digitChar).foldl (fun acc c => 16 * acc + hexVal c) 0 =
      Nat.ofDigits 16 l := by
  induction l with
  | nil => simp
  | cons d ds ih =>
    rw [List.reverse_cons, List.map_append, List.foldl_append, ih (fun x hx => hl x (by simp [hx]))]
    simp only [List.map_cons, List.map_nil, List.foldl_cons, List.foldl_nil, Nat.ofDigits_cons]
    rw [hexVal_digitChar d (hl d (by simp))]
    omega

theorem parseHex_fmt_lx (m : Nat) (hm : m < 2 ^ 64) : parseHex (fmt_lx m) = m := by
  unfold parseHex fmt_lx
  rw [Nat.mod_eq_of_lt hm]
  show List.foldl _ 0 (Nat.toDigits 16 m) = m
  rw [toDigits_eq_digits 16 (by decide)]
  by_cases h0 : m = 0
  · subst h0; decide
  · rw [if_neg h0, foldl_hex_digits _ (fun d hd => Nat.digits_lt_base (by decide) hd),
      Nat.ofDigits_digits]

theorem fmt_lx_length (m : Nat) (hm : m < 2 ^ 64) (j : Nat) (hj : 1 ≤ j) :
    (fmt_lx m).length ≤ j ↔ m < 16 ^ j := by
  unfold fmt_lx
  rw [Nat.mod_eq_of_lt hm]
  show (Nat.toDigits 16 m).length ≤ j ↔ _
  rw [toDigits_eq_digits 16 (by decide)]
  by_cases h0 : m = 0
  · subst h0
    simp
    exact hj
  · rw [if_neg h0, List.length_map, List.length_reverse]
    constructor
    · intro hle
      exact lt_of_lt_of_le (Nat.lt_base_pow_length_digits (by decide))
        (Nat.pow_le_pow_right (by decide) hle)
    · intro hlt
      by_contra hcon
      have h1 : j + 1 ≤ (Nat.digits 16 m).length := by omega
      have h2 : 16 ^ (j + 1) ≤ 16 ^ (Nat.digits 16 m).length :=
        Nat.pow_le_pow_right (by decide) h1
      have h3 := Nat.base_pow_length_digits_le 16 m (by decide) h0
      rw [pow_succ] at h2
      omega

theorem fmt_lx_head (m : Nat) (hm : m < 2 ^ 64) (h0 : m ≠ 0) :
    (fmt_lx m).data.head? ≠ some '0' := by
  unfold fmt_lx
  rw [Nat.mod_eq_of_lt hm]
  show (Nat.toDigits 16 m).head? ≠ _
  rw [toDigits_eq_digits 16 (by decide), if_neg h0]
  have hne : Nat.digits 16 m ≠ [] := Nat.digits_ne_nil_iff_ne_zero.mpr h0
  have hlast := Nat.getLast_digit_ne_zero 16 h0
  have hlt : (Nat.digits 16 m).getLast hne < 16 :=
    Nat.digits_lt_base (by decide) (List.getLast_mem hne)
  rw [List.head?_map, List.head?_reverse, List.getLast?_eq_getLast _ hne]
  simp only [Option.map_some']
  intro h
  have h2 : Nat.digitChar ((Nat.digits 16 m).getLast hne) = '0' := Option.some.inj h
  generalize (Nat.digits 16 m).getLast hne = d at hlast hlt h2
  interval_cases d
  · exact hlast rfl
  all_goals exact absurd h2 (by decide)

theorem dropLead_append (p x : List Char) : dropLead p (p ++ x) = some x := by
  induction p with
  | nil => rfl
  | cons a p ih => simp [dropLead, ih]

theorem maskDigits_main (k : RssBits) (w : Collaborators) (h : 0 ≤ w.rte_eal_init) :
    maskDigits (main k w).stdout = some (fmt_lx w.dev_info.flow_type_rss_offloads) := by
  unfold maskDigits
  rw [main_lines k w h]
  have e1 : dropLead "Flow type RSS offloads: 0x".data "=== RSS Capabilities ===".data = none := by
    decide
  have e2 : dropLead "Flow type RSS offloads: 0x".data
      ("Max RX queues: " ++ fmt_u w.dev_info.max_rx_queues).data = none := by
    rw [String.data_append]; rfl
  have e3 : dropLead "Flow type RSS offloads: 0x".data
      ("Max TX queues: " ++ fmt_u w.dev_info.max_tx_queues).data = none := by
    rw [String.data_append]; rfl
  have e4 : dropLead "Flow type RSS offloads: 0x".data
      ("Flow type RSS offloads: 0x" ++ fmt_lx w.dev_info.flow_type_rss_offloads).data =
        some (fmt_lx w.dev_info.flow_type_rss_offloads).data := by
    rw [String.data_append]; exact dropLead_append _ _
  simp only [fixedLines, List.cons_append, List.findSome?, e1, e2, e3, e4, Option.map_none',
    Option.map_some']

theorem count_labelLines_le (l : String) :
    (l ≠ "  - RTE_ETH_RSS_IPV6" →
      List.count l
        [ "  - RTE_ETH_RSS_IPV4", "  - RTE_ETH_RSS_FRAG_IPV4",
          "  - RTE_ETH_RSS_NONFRAG_IPV4_TCP", "  - RTE_ETH_RSS_NONFRAG_IPV4_UDP",
          "  - RTE_ETH_RSS_IPV6", "  - RTE_ETH_RSS_IPV6", "  - RTE_ETH_RSS_IPV6_TCP",
          "  - RTE_ETH_RSS_IPV6_UDP", "  - RTE_ETH_RSS_IPV6_SCTP",
          "  - RTE_ETH_RSS_IPV6_OTHER" ] ≤ 1) := by
  intro hl
  have hnd : List.Nodup [ "  - RTE_ETH_RSS_IPV4", "  - RTE_ETH_RSS_FRAG_IPV4",
          "  - RTE_ETH_RSS_NONFRAG_IPV4_TCP", "  - RTE_ETH_RSS_NONFRAG_IPV4_UDP",
          "  - RTE_ETH_RSS_IPV6", "  - RTE_ETH_RSS_IPV6_TCP",
          "  - RTE_ETH_RSS_IPV6_UDP", "  - RTE_ETH_RSS_IPV6_SCTP",
          "  - RTE_ETH_RSS_IPV6_OTHER" ] := by decide
  have hc := List.nodup_iff_count_le_one.mp hnd l
  have hne : ("  - RTE_ETH_RSS_IPV6" == l) = false := by
    simpa using fun h => hl h.symm
  simp only [List.count_cons, hne, Bool.false_eq_true, if_false] at hc ⊢
  omega

/-! ## The claims -/

/-- C1: on every run that reaches the report, whatever the mask and the queue counts, the
lines that follow the sub-header are exactly the lines `"  - " ++ text` of the table
entries whose constant has a bit in common with the mask, in table order; the whole
output is the six fixed lines followed by these lines. -/
theorem C1_capability_lines_filter_table (k : RssBits) (w : Collaborators)
    (h : 0 ≤ w.rte_eal_init) :
    capabilityLines (main k w).stdout =
        ((capabilityTable k).filter
          (fun e => w.dev_info.flow_type_rss_offloads &&& e.1 ≠ 0)).map
            (fun e => "  - " ++ e.2) ∧
      outputLines (main k w).stdout =
        fixedLines w.dev_info ++ capabilityLines (main k w).stdout := by
  rw [main_capabilityLines k w h, main_lines k w h]
  exact ⟨rfl, rfl⟩

theorem C1_witness :
    (0 : Int) ≤ (Collaborators.mk 0 0 ⟨16, 16, 0x14⟩).rte_eal_init ∧
      capabilityLines (main distinctBits ⟨0, 0, ⟨16, 16, 0x14⟩⟩).stdout =
        ((capabilityTable distinctBits).filter (fun e => 0x14 &&& e.1 ≠ 0)).map
          (fun e => "  - " ++ e.2) :=
  ⟨by decide, (C1_capability_lines_filter_table distinctBits ⟨0, 0, ⟨16, 16, 0x14⟩⟩
    (by decide)).1⟩

/-- C2 as stated fails when two of the tested constants name the same bit: with
`RTE_RSS_IPV6` equal to `RTE_ETH_RSS_IPV6` and only that bit set in the mask, two
capability lines are written while the mask has one bit in common with the union. -/
theorem C2_counterexample :
    (capabilityLines (main aliasedBits ⟨0, 0, ⟨16, 16, 2 ^ 8⟩⟩).stdout).length = 2 ∧
      popcount64 (2 ^ 8 &&& bitsUnion aliasedBits) = 1 ∧
      (capabilityLines (main aliasedBits ⟨0, 0, ⟨16, 16, 2 ^ 8⟩⟩).stdout).length ≠
        popcount64 (2 ^ 8 &&& bitsUnion aliasedBits) := by
  decide

/-- C2, amended: for every descriptor the number of capability lines equals the number of
table entries whose constant has a bit in common with the mask; when the ten constants
are pairwise distinct single bits of a 64-bit word, that number equals the number of bits
set in the mask AND the union of the ten constants. -/
theorem C2_capability_line_count (k : RssBits) (w : Collaborators)
    (h : 0 ≤ w.rte_eal_init) :
    (capabilityLines (main k w).stdout).length =
        ((capabilityTable k).filter
          (fun e => w.dev_info.flow_type_rss_offloads &&& e.1 ≠ 0)).length ∧
      (DistinctSingleBits k →
        (capabilityLines (main k w).stdout).length =
          popcount64 (w.dev_info.flow_type_rss_offloads &&& bitsUnion k)) := by
  have hlen : (capabilityLines (main k w).stdout).length =
      ((capabilityTable k).filter
        (fun e => w.dev_info.flow_type_rss_offloads &&& e.1 ≠ 0)).length := by
    rw [main_capabilityLines k w h, tableLines, List.length_map]
  refine ⟨hlen, ?_⟩
  rintro ⟨hnd, hpow⟩
  obtain ⟨idx, hidx, hlt⟩ := exists_idx _ hpow
  have hnd2 : idx.Nodup := by
    rw [hidx] at hnd
    exact hnd.of_map _
  have hcount := count_eq_popcount w.dev_info.flow_type_rss_offloads idx hnd2 hlt
  rw [← hidx, List.filter_map, List.length_map] at hcount
  rw [hlen, bitsUnion]
  exact hcount

theorem C2_witness :
    (capabilityLines (main distinctBits ⟨0, 0, ⟨16, 16, 0x114⟩⟩).stdout).length =
      popcount64 (0x114 &&& bitsUnion distinctBits) :=
  (C2_capability_line_count distinctBits ⟨0, 0, ⟨16, 16, 0x114⟩⟩ (by decide)).2
    (by decide)

/-- C3: a run in which the runtime starts and the device-info query fails (it returns
-19 and leaves `dev_info` zeroed): the return value of the query changes nothing in any
run, so the whole report is printed and `main` returns 0. -/
theorem C3_query_failure_still_reports :
    (∀ (k : RssBits) (w : Collaborators) (r : Int),
        main k { w with rte_eth_dev_info_get := r } = main k w) ∧
      main distinctBits ⟨0, -19, ⟨0, 0, 0⟩⟩ =
        { stdout := "=== RSS Capabilities ===\nMax RX queues: 0\nMax TX queues: 0\n" ++
            "Flow type RSS offloads: 0x0\n\nSupported RSS hash functions:\n",
          ret := 0 } := by
  refine ⟨fun k w r => rfl, by decide⟩

/-- C4: when `rte_eal_init` returns a negative value the program writes only the message
`EAL init failed`, returns -1 (exit status 255) and writes no line of the report; when it
returns a non-negative value the message is not written, the report is, and `main`
returns 0. -/
theorem C4_init_failure_exit (k : RssBits) (w : Collaborators) :
    (w.rte_eal_init < 0 →
        (main k w).stdout = "EAL init failed\n" ∧
        (main k w).ret = -1 ∧ (main k w).ret ≠ 0 ∧ (main k w).ret % 256 = 255 ∧
        ∀ (k2 : RssBits) (d : rte_eth_dev_info) (m : Nat),
          ∀ l ∈ fixedLines d ++ tableLines k2 m, l ∉ outputLines (main k w).stdout) ∧
      (0 ≤ w.rte_eal_init →
        (main k w).ret = 0 ∧
        "EAL init failed" ∉ outputLines (main k w).stdout ∧
        outputLines (main k w).stdout =
          fixedLines w.dev_info ++ tableLines k w.dev_info.flow_type_rss_offloads) := by
  constructor
  · intro h
    have hm : main k w = { stdout := "EAL init failed\n", ret := -1 } := by
      unfold main
      simp only [h, if_true]
      rfl
    rw [hm]
    refine ⟨rfl, rfl, by decide, by decide, ?_⟩
    intro k2 d m l hl hmem
    have hout : outputLines "EAL init failed\n" = ["EAL init failed"] := by decide
    rw [hout, List.mem_singleton] at hmem
    rcases List.mem_append.mp hl with h1 | h1
    · exact fixedLine_ne_init_message d l h1 hmem
    · exact tableLine_ne_init_message k2 m l h1 hmem
  · intro h
    have h2 : ¬ w.rte_eal_init < 0 := not_lt.mpr h
    refine ⟨?_, ?_, main_lines k w h⟩
    · unfold main
      simp only [h2, if_false]
    · rw [main_lines k w h]
      intro hmem
      rcases List.mem_append.mp hmem with h1 | h1
      · exact fixedLine_ne_init_message _ _ h1 rfl
      · exact tableLine_ne_init_message _ _ _ h1 rfl

theorem C4_witness :
    main distinctBits ⟨-1, 0, ⟨16, 16, 0x14⟩⟩ = { stdout := "EAL init failed\n", ret := -1 } ∧
      (main distinctBits ⟨-1, 0, ⟨16, 16, 0x14⟩⟩).ret % 256 = 255 ∧
      (main distinctBits ⟨0, 0, ⟨16, 16, 0x14⟩⟩).ret = 0 :=
  ⟨by decide,
    ((C4_init_failure_exit distinctBits ⟨-1, 0, ⟨16, 16, 0x14⟩⟩).1 (by decide)).2.2.2.1,
    ((C4_init_failure_exit distinctBits ⟨0, 0, ⟨16, 16, 0x14⟩⟩).2 (by decide)).1⟩

/-- C5 as stated fails: the mask 0x14 is rendered as `0x14`, a digit string of two
digits with no leading zero, not of sixteen. -/
theorem C5_counterexample :
    outputLines (main distinctBits ⟨0, 0, ⟨16, 16, 0x14⟩⟩).stdout =
        [ "=== RSS Capabilities ===", "Max RX queues: 16", "Max TX queues: 16",
          "Flow type RSS offloads: 0x14", "", "Supported RSS hash functions:",
          "  - RTE_ETH_RSS_IPV4", "  - RTE_ETH_RSS_NONFRAG_IPV4_TCP" ] ∧
      maskDigits (main distinctBits ⟨0, 0, ⟨16, 16, 0x14⟩⟩).stdout = some "14" ∧
      ¬ ∃ ds : String, maskDigits (main distinctBits ⟨0, 0, ⟨16, 16, 0x14⟩⟩).stdout = some ds ∧
        ds.length = 16 := by
  refine ⟨by decide, by decide, ?_⟩
  rintro ⟨ds, h1, h2⟩
  have h3 : maskDigits (main distinctBits ⟨0, 0, ⟨16, 16, 0x14⟩⟩).stdout = some "14" := by
    decide
  rw [h3] at h1
  have h4 : ds = "14" := (Option.some.inj h1).symm
  rw [h4] at h2
  exact absurd h2 (by decide)

/-- C5, amended: for every descriptor with a 64-bit mask, the mask line renders the mask
after `0x` in hexadecimal with no padding: the digit string has between 1 and 16 digits
(16 exactly when the mask is at least 2^60), is `0` for the mask 0 and otherwise does not
begin with `0`, and parsing it as hexadecimal gives back the mask. -/
theorem C5_mask_line_hex_unpadded (k : RssBits) (w : Collaborators)
    (h : 0 ≤ w.rte_eal_init) (hm : w.dev_info.flow_type_rss_offloads < 2 ^ 64) :
    (outputLines (main k w).stdout)[3]? =
        some ("Flow type RSS offloads: 0x" ++ fmt_lx w.dev_info.flow_type_rss_offloads) ∧
      maskDigits (main k w).stdout = some (fmt_lx w.dev_info.flow_type_rss_offloads) ∧
      1 ≤ (fmt_lx w.dev_info.flow_type_rss_offloads).length ∧
      (fmt_lx w.dev_info.flow_type_rss_offloads).length ≤ 16 ∧
      ((fmt_lx w.dev_info.flow_type_rss_offloads).length = 16 ↔
        2 ^ 60 ≤ w.dev_info.flow_type_rss_offloads) ∧
      (w.dev_info.flow_type_rss_offloads = 0 →
        fmt_lx w.dev_info.flow_type_rss_offloads = "0") ∧
      (w.dev_info.flow_type_rss_offloads ≠ 0 →
        (fmt_lx w.dev_info.flow_type_rss_offloads).data.head? ≠ some '0') ∧
      parseHex (fmt_lx w.dev_info.flow_type_rss_offloads) =
        w.dev_info.flow_type_rss_offloads := by
  have h16 : (fmt_lx w.dev_info.flow_type_rss_offloads).length ≤ 16 :=
    (fmt_lx_length _ hm 16 (by decide)).mpr (by simpa using hm)
  have h15 := fmt_lx_length _ hm 15 (by decide)
  have h1 : 1 ≤ (fmt_lx w.dev_info.flow_type_rss_offloads).length := by
    by_contra hc
    have h0 : (fmt_lx w.dev_info.flow_type_rss_offloads).length = 0 := by omega
    have hp := parseHex_fmt_lx _ hm
    have hd : (fmt_lx w.dev_info.flow_type_rss_offloads).data = [] :=
      List.length_eq_zero.mp h0
    have hz : w.dev_info.flow_type_rss_offloads = 0 := by
      rw [← hp, parseHex, hd]; rfl
    rw [hz] at h0
    exact absurd h0 (by decide)
  refine ⟨?_, maskDigits_main k w h, h1, h16, ?_, ?_, fmt_lx_head _ hm, parseHex_fmt_lx _ hm⟩
  · rw [main_lines k w h]; rfl
  · have e : (2 : Nat) ^ 60 = 16 ^ 15 := by norm_num
    rw [e]
    constructor
    · intro h2
      by_contra hc
      have := h15.mpr (not_le.mp hc)
      omega
    · intro h2
      have : ¬ (fmt_lx w.dev_info.flow_type_rss_offloads).length ≤ 15 :=
        fun hc => absurd (h15.mp hc) (not_lt.mpr h2)
      omega
  · intro hz
    rw [hz]; rfl

theorem C5_witness :
    maskDigits (main distinctBits ⟨0, 0, ⟨16, 16, 0x14⟩⟩).stdout = some (fmt_lx 0x14) ∧
      parseHex (fmt_lx 0x14) = 0x14 :=
  ⟨(C5_mask_line_hex_unpadded distinctBits ⟨0, 0, ⟨16, 16, 0x14⟩⟩ (by decide)
      (by decide)).2.1,
    (C5_mask_line_hex_unpadded distinctBits ⟨0, 0, ⟨16, 16, 0x14⟩⟩ (by decide)
      (by decide)).2.2.2.2.2.2.2⟩

/-- C6 as stated fails: with mask 0 the output has six lines (five of them non-empty),
not four. -/
theorem C6_counterexample :
    (main distinctBits ⟨0, 0, ⟨16, 16, 0⟩⟩).stdout =
        "=== RSS Capabilities ===\nMax RX queues: 16\nMax TX queues: 16\n" ++
          "Flow type RSS offloads: 0x0\n\nSupported RSS hash functions:\n" ∧
      (outputLines (main distinctBits ⟨0, 0, ⟨16, 16, 0⟩⟩).stdout).length = 6 ∧
      ((outputLines (main distinctBits ⟨0, 0, ⟨16, 16, 0⟩⟩).stdout).filter
        (fun l => l ≠ "")).length = 5 ∧
      (outputLines (main distinctBits ⟨0, 0, ⟨16, 16, 0⟩⟩).stdout).length ≠ 4 := by
  decide

/-- C6, amended: for every descriptor with mask 0, whatever the queue counts, the output
is exactly the six fixed lines (header, the two queue lines, the mask line `0x0`, a blank
line, the sub-header) with no capability line: it has six lines and none begins with
`"  - "`. -/
theorem C6_zero_mask_fixed_lines_only (k : RssBits) (w : Collaborators)
    (h : 0 ≤ w.rte_eal_init) (hmask : w.dev_info.flow_type_rss_offloads = 0) :
    outputLines (main k w).stdout =
        [ "=== RSS Capabilities ===",
          "Max RX queues: " ++ fmt_u w.dev_info.max_rx_queues,
          "Max TX queues: " ++ fmt_u w.dev_info.max_tx_queues,
          "Flow type RSS offloads: 0x0",
          "",
          "Supported RSS hash functions:" ] ∧
      (outputLines (main k w).stdout).length = 6 ∧
      capabilityLines (main k w).stdout = [] ∧
      ∀ l ∈ outputLines (main k w).stdout, ¬ "  - ".data <+: l.data := by
  have ht : tableLines k w.dev_info.flow_type_rss_offloads = [] := by
    rw [hmask]
    simp [tableLines]
  have hl : outputLines (main k w).stdout = fixedLines w.dev_info := by
    rw [main_lines k w h, ht, List.append_nil]
  refine ⟨?_, ?_, ?_, ?_⟩
  · rw [hl, fixedLines, hmask]
    rfl
  · rw [hl]; rfl
  · rw [main_capabilityLines k w h, ht]
  · rw [hl]
    exact fixedLine_not_capability _

theorem C6_witness :
    outputLines (main distinctBits ⟨0, 0, ⟨16, 16, 0⟩⟩).stdout =
        [ "=== RSS Capabilities ===", "Max RX queues: 16", "Max TX queues: 16",
          "Flow type RSS offloads: 0x0", "", "Supported RSS hash functions:" ] ∧
      capabilityLines (main distinctBits ⟨0, 0, ⟨16, 16, 0⟩⟩).stdout = [] :=
  ⟨(C6_zero_mask_fixed_lines_only distinctBits ⟨0, 0, ⟨16, 16, 0⟩⟩ (by decide) rfl).1,
    (C6_zero_mask_fixed_lines_only distinctBits ⟨0, 0, ⟨16, 16, 0⟩⟩ (by decide) rfl).2.2.1⟩

/-- C7: for the descriptor whose mask has all 64 bits set, every constant of the table
being a non-zero 64-bit value, the capability lines are the lines of all ten entries of
lines 20-39, one per entry, in source order. -/
theorem C7_full_mask_all_entries (k : RssBits) (w : Collaborators)
    (h : 0 ≤ w.rte_eal_init) (hmask : w.dev_info.flow_type_rss_offloads = 2 ^ 64 - 1)
    (hbits : ∀ e ∈ capabilityTable k, 0 < e.1 ∧ e.1 < 2 ^ 64) :
    capabilityLines (main k w).stdout =
        (capabilityTable k).map (fun e => "  - " ++ e.2) ∧
      capabilityLines (main k w).stdout =
        [ "  - RTE_ETH_RSS_IPV4", "  - RTE_ETH_RSS_FRAG_IPV4",
          "  - RTE_ETH_RSS_NONFRAG_IPV4_TCP", "  - RTE_ETH_RSS_NONFRAG_IPV4_UDP",
          "  - RTE_ETH_RSS_IPV6", "  - RTE_ETH_RSS_IPV6", "  - RTE_ETH_RSS_IPV6_TCP",
          "  - RTE_ETH_RSS_IPV6_UDP", "  - RTE_ETH_RSS_IPV6_SCTP",
          "  - RTE_ETH_RSS_IPV6_OTHER" ] := by
  have hf : (capabilityTable k).filter
      (fun e => w.dev_info.flow_type_rss_offloads &&& e.1 ≠ 0) = capabilityTable k := by
    rw [List.filter_eq_self]
    intro e he
    have h1 := hbits e he
    rw [hmask, allOnes_and _ h1.2]
    simpa using Nat.pos_iff_ne_zero.mp h1.1
  have hc : capabilityLines (main k w).stdout =
      (capabilityTable k).map (fun e => "  - " ++ e.2) := by
    rw [main_capabilityLines k w h, tableLines, hf]
  refine ⟨hc, ?_⟩
  rw [hc]
  rfl

theorem C7_witness :
    capabilityLines (main distinctBits ⟨0, 0, ⟨16, 16, 2 ^ 64 - 1⟩⟩).stdout =
      [ "  - RTE_ETH_RSS_IPV4", "  - RTE_ETH_RSS_FRAG_IPV4",
        "  - RTE_ETH_RSS_NONFRAG_IPV4_TCP", "  - RTE_ETH_RSS_NONFRAG_IPV4_UDP",
        "  - RTE_ETH_RSS_IPV6", "  - RTE_ETH_RSS_IPV6", "  - RTE_ETH_RSS_IPV6_TCP",
        "  - RTE_ETH_RSS_IPV6_UDP", "  - RTE_ETH_RSS_IPV6_SCTP",
        "  - RTE_ETH_RSS_IPV6_OTHER" ] :=
  (C7_full_mask_all_entries distinctBits ⟨0, 0, ⟨16, 16, 2 ^ 64 - 1⟩⟩ (by decide) rfl
    (by decide)).2

/-- C8 as stated fails: for 16 receive queues, 16 transmit queues and the mask 0x14 (only
the bits of `RTE_ETH_RSS_IPV4` and `RTE_ETH_RSS_NONFRAG_IPV4_TCP`), the output is not the
seven lines header, two queue lines, mask line, sub-header and two capability lines: it
has eight lines, a blank line standing between the mask line and the sub-header. -/
theorem C8_counterexample :
    outputLines (main distinctBits ⟨0, 0, ⟨16, 16, 0x14⟩⟩).stdout ≠
        [ "=== RSS Capabilities ===", "Max RX queues: 16", "Max TX queues: 16",
          "Flow type RSS offloads: 0x14", "Supported RSS hash functions:",
          "  - RTE_ETH_RSS_IPV4", "  - RTE_ETH_RSS_NONFRAG_IPV4_TCP" ] ∧
      (outputLines (main distinctBits ⟨0, 0, ⟨16, 16, 0x14⟩⟩).stdout).length = 8 ∧
      (outputLines (main distinctBits ⟨0, 0, ⟨16, 16, 0x14⟩⟩).stdout)[4]? = some "" ∧
      (main distinctBits ⟨0, 0, ⟨16, 16, 0x14⟩⟩).stdout =
        "=== RSS Capabilities ===\nMax RX queues: 16\nMax TX queues: 16\n" ++
          "Flow type RSS offloads: 0x14\n\nSupported RSS hash functions:\n" ++
          "  - RTE_ETH_RSS_IPV4\n  - RTE_ETH_RSS_NONFRAG_IPV4_TCP\n" := by
  have hl : outputLines (main distinctBits ⟨0, 0, ⟨16, 16, 0x14⟩⟩).stdout =
      [ "=== RSS Capabilities ===", "Max RX queues: 16", "Max TX queues: 16",
        "Flow type RSS offloads: 0x14", "", "Supported RSS hash functions:",
        "  - RTE_ETH_RSS_IPV4", "  - RTE_ETH_RSS_NONFRAG_IPV4_TCP" ] := by decide
  rw [hl]
  exact ⟨by decide, rfl, rfl, rfl⟩

/-- C8, amended: for the descriptor with 16 receive queues, 16 transmit queues and a mask
in which, of the tested constants, only `RTE_ETH_RSS_IPV4` and
`RTE_ETH_RSS_NONFRAG_IPV4_TCP` have a bit set, the output is exactly eight lines: the
header, `Max RX queues: 16`, `Max TX queues: 16`, the hexadecimal mask line, a blank line,
the sub-header, and then exactly two capability lines, IPv4 first and non-fragmented
IPv4-TCP second, and nothing else; `main` returns 0. -/
theorem C8_ipv4_tcp_scenario (k : RssBits) (w : Collaborators) (h : 0 ≤ w.rte_eal_init)
    (hrx : w.dev_info.max_rx_queues = 16) (htx : w.dev_info.max_tx_queues = 16)
    (h1 : w.dev_info.flow_type_rss_offloads &&& k.RTE_ETH_RSS_IPV4 ≠ 0)
    (h2 : w.dev_info.flow_type_rss_offloads &&& k.RTE_ETH_RSS_FRAG_IPV4 = 0)
    (h3 : w.dev_info.flow_type_rss_offloads &&& k.RTE_ETH_RSS_NONFRAG_IPV4_TCP ≠ 0)
    (h4 : w.dev_info.flow_type_rss_offloads &&& k.RTE_ETH_RSS_NONFRAG_IPV4_UDP = 0)
    (h5 : w.dev_info.flow_type_rss_offloads &&& k.RTE_ETH_RSS_IPV6 = 0)
    (h6 : w.dev_info.flow_type_rss_offloads &&& k.RTE_RSS_IPV6 = 0)
    (h7 : w.dev_info.flow_type_rss_offloads &&& k.RTE_RSS_IPV6_TCP = 0)
    (h8 : w.dev_info.flow_type_rss_offloads &&& k.RTE_RSS_IPV6_UDP = 0)
    (h9 : w.dev_info.flow_type_rss_offloads &&& k.RTE_RSS_IPV6_SCTP = 0)
    (h10 : w.dev_info.flow_type_rss_offloads &&& k.RTE_RSS_IPV6_OTHER = 0) :
    outputLines (main k w).stdout =
        [ "=== RSS Capabilities ===",
          "Max RX queues: 16",
          "Max TX queues: 16",
          "Flow type RSS offloads: 0x" ++ fmt_lx w.dev_info.flow_type_rss_offloads,
          "",
          "Supported RSS hash functions:",
          "  - RTE_ETH_RSS_IPV4",
          "  - RTE_ETH_RSS_NONFRAG_IPV4_TCP" ] ∧
      (main k w).ret = 0 := by
  have ht : tableLines k w.dev_info.flow_type_rss_offloads =
      ["  - RTE_ETH_RSS_IPV4", "  - RTE_ETH_RSS_NONFRAG_IPV4_TCP"] := by
    simp only [tableLines, capabilityTable, List.filter_cons, List.filter_nil, h1, h2, h3, h4,
      h5, h6, h7, h8, h9, h10, ne_eq, not_true_eq_false, not_false_eq_true, decide_True,
      decide_False, if_true, if_false, List.map_cons, List.map_nil]
    rfl
  have h0 : ¬ w.rte_eal_init < 0 := not_lt.mpr h
  refine ⟨?_, ?_⟩
  · rw [main_lines k w h, ht, fixedLines, hrx, htx]
    rfl
  · unfold main
    simp only [h0, if_false]

theorem C8_witness :
    outputLines (main distinctBits ⟨0, 0, ⟨16, 16, 0x14⟩⟩).stdout =
      [ "=== RSS Capabilities ===", "Max RX queues: 16", "Max TX queues: 16",
        "Flow type RSS offloads: 0x14", "", "Supported RSS hash functions:",
        "  - RTE_ETH_RSS_IPV4", "  - RTE_ETH_RSS_NONFRAG_IPV4_TCP" ] :=
  (C8_ipv4_tcp_scenario distinctBits ⟨0, 0, ⟨16, 16, 0x14⟩⟩ (by decide) rfl rfl (by decide)
    (by decide) (by decide) (by decide) (by decide) (by decide) (by decide) (by decide)
    (by decide) (by decide)).1

/-- C9 as stated fails: the table has ten entries, not nine, and two of them carry
the text `RTE_ETH_RSS_IPV6`; with the bits of `RTE_ETH_RSS_IPV6` and `RTE_RSS_IPV6` set
in the mask that capability line is written twice. -/
theorem C9_counterexample :
    (capabilityTable distinctBits).length = 10 ∧
      ¬ ((capabilityTable distinctBits).map Prod.snd).Nodup ∧
      (capabilityLines (main distinctBits ⟨0, 0, ⟨16, 16, 0x300⟩⟩).stdout) =
        ["  - RTE_ETH_RSS_IPV6", "  - RTE_ETH_RSS_IPV6"] ∧
      (capabilityLines (main distinctBits ⟨0, 0, ⟨16, 16, 0x300⟩⟩).stdout).count
        "  - RTE_ETH_RSS_IPV6" = 2 := by
  decide

/-- C9, amended: the table has ten entries carrying nine distinct texts; the text
`RTE_ETH_RSS_IPV6` is carried by two entries. For every mask each capability line other
than `  - RTE_ETH_RSS_IPV6` is written at most once, and that one at most twice. -/
theorem C9_ten_entries_nine_labels (k : RssBits) (w : Collaborators)
    (h : 0 ≤ w.rte_eal_init) :
    (capabilityTable k).length = 10 ∧
      ((capabilityTable k).map Prod.snd).dedup.length = 9 ∧
      ((capabilityTable k).map Prod.snd).count "RTE_ETH_RSS_IPV6" = 2 ∧
      (∀ l : String, l ≠ "  - RTE_ETH_RSS_IPV6" →
        (capabilityLines (main k w).stdout).count l ≤ 1) ∧
      (capabilityLines (main k w).stdout).count "  - RTE_ETH_RSS_IPV6" ≤ 2 := by
  have hsub : List.Sublist (capabilityLines (main k w).stdout)
      ((capabilityTable k).map (fun e => "  - " ++ e.2)) := by
    rw [main_capabilityLines k w h, tableLines]
    exact List.Sublist.map _ (List.filter_sublist _)
  have hall : (capabilityTable k).map (fun e => "  - " ++ e.2) =
      [ "  - RTE_ETH_RSS_IPV4", "  - RTE_ETH_RSS_FRAG_IPV4",
          "  - RTE_ETH_RSS_NONFRAG_IPV4_TCP", "  - RTE_ETH_RSS_NONFRAG_IPV4_UDP",
          "  - RTE_ETH_RSS_IPV6", "  - RTE_ETH_RSS_IPV6", "  - RTE_ETH_RSS_IPV6_TCP",
          "  - RTE_ETH_RSS_IPV6_UDP", "  - RTE_ETH_RSS_IPV6_SCTP",
          "  - RTE_ETH_RSS_IPV6_OTHER" ] := rfl
  rw [hall] at hsub
  have hlab : (capabilityTable k).map Prod.snd =
      [ "RTE_ETH_RSS_IPV4", "RTE_ETH_RSS_FRAG_IPV4", "RTE_ETH_RSS_NONFRAG_IPV4_TCP",
        "RTE_ETH_RSS_NONFRAG_IPV4_UDP", "RTE_ETH_RSS_IPV6", "RTE_ETH_RSS_IPV6",
        "RTE_ETH_RSS_IPV6_TCP", "RTE_ETH_RSS_IPV6_UDP", "RTE_ETH_RSS_IPV6_SCTP",
        "RTE_ETH_RSS_IPV6_OTHER" ] := rfl
  refine ⟨rfl, ?_, ?_, ?_, ?_⟩
  · rw [hlab]; decide
  · rw [hlab]; decide
  · intro l hl
    exact le_trans (hsub.count_le l) (count_labelLines_le l hl)
  · exact le_trans (hsub.count_le _) (by decide)

theorem C9_witness :
    (capabilityLines (main distinctBits ⟨0, 0, ⟨16, 16, 0x300⟩⟩).stdout).count
      "  - RTE_ETH_RSS_IPV6" ≤ 2 :=
  (C9_ten_entries_nine_labels distinctBits ⟨0, 0, ⟨16, 16, 0x300⟩⟩ (by decide)).2.2.2.2

/-- C10: the capability listing is monotone in the mask and does not depend on the queue
counts: when every bit of the mask of the first descriptor is set in the mask of the
second, the capability lines of the first run are a sublist of those of the second. -/
theorem C10_capability_lines_monotone (k : RssBits) (w1 w2 : Collaborators)
    (h1 : 0 ≤ w1.rte_eal_init) (h2 : 0 ≤ w2.rte_eal_init)
    (hsub : w1.dev_info.flow_type_rss_offloads &&& w2.dev_info.flow_type_rss_offloads =
      w1.dev_info.flow_type_rss_offloads) :
    List.Sublist (capabilityLines (main k w1).stdout) (capabilityLines (main k w2).stdout) := by
  rw [main_capabilityLines k w1 h1, main_capabilityLines k w2 h2]
  unfold tableLines
  apply List.Sublist.map
  apply List.monotone_filter_right
  intro e he
  have h3 : w1.dev_info.flow_type_rss_offloads &&& e.1 ≠ 0 := by simpa using he
  have h4 := and_ne_zero_mono _ _ _ hsub h3
  simpa using h4

theorem C10_witness :
    List.Sublist
      (capabilityLines (main distinctBits ⟨0, 0, ⟨16, 16, 0x14⟩⟩).stdout)
      (capabilityLines (main distinctBits ⟨0, 0, ⟨4, 128, 0x3c⟩⟩).stdout) :=
  C10_capability_lines_monotone distinctBits ⟨0, 0, ⟨16, 16, 0x14⟩⟩ ⟨0, 0, ⟨4, 128, 0x3c⟩⟩
    (by decide) (by decide) (by decide)

end CheckRssSupport
